import Mathlib

/-!
Shallow embedding of the subscription-group segment-membership engine of
dittofeed (file `subscriptionGroups.ts`, provided as `src/unnamed/part_000`),
together with theorems settling the frozen claims C1..C10.

The relational store accessed through prisma is modelled as an explicit
`Db` record of row lists; every prisma call becomes a pure function on `Db`.
Read calls (`findUnique`, `findMany`) return their result together with the
unchanged store; write calls (`upsert`, `$transaction`, event insertion)
return the updated store.  Asynchronous sequencing (`Promise.all`) of
independent reads/writes is modelled by ordinary sequential composition of
the corresponding pure functions.
-/

namespace Dittofeed

/-- `SubscriptionChange` enum from isomorphic-lib types (Subscribe / UnSubscribe). -/
inductive SubscriptionChange where
  | Subscribe
  | UnSubscribe
deriving DecidableEq, Repr

/-- `SubscriptionGroupType` enum (OptIn / OptOut). -/
inductive SubscriptionGroupType where
  | OptIn
  | OptOut
deriving DecidableEq, Repr

/-- Segment node kinds; `upsertSubscriptionGroup` only builds nodes of kind
`SubscriptionGroup`. -/
inductive SegmentNodeType where
  | Trait
  | And
  | Or
  | SubscriptionGroup
deriving DecidableEq, Repr

/-- The single entry node written by `upsertSubscriptionGroup`:
`{ type: SegmentNodeType.SubscriptionGroup, id: "1", subscriptionGroupId: id }`. -/
structure SegmentNode where
  type : SegmentNodeType
  id : String
  subscriptionGroupId : String
deriving DecidableEq, Repr

/-- `SegmentDefinition = { entryNode, nodes }`. -/
structure SegmentDefinition where
  entryNode : SegmentNode
  nodes : List SegmentNode
deriving DecidableEq, Repr

/-- A row of the `Secret` table: unique key `(workspaceId, name)`. -/
structure SecretRow where
  workspaceId : String
  name : String
  value : String
deriving DecidableEq, Repr

/-- A row of the `UserProperty` table: unique key `(workspaceId, name)`. -/
structure UserPropertyRow where
  id : String
  workspaceId : String
  name : String
deriving DecidableEq, Repr

/-- A row of the `UserPropertyAssignment` table, related to `UserProperty`
by `userPropertyId`. -/
structure UserPropertyAssignmentRow where
  userPropertyId : String
  userId : String
  value : String
deriving DecidableEq, Repr

/-- A row of the `Channel` table: unique key `(workspaceId, name)`. -/
structure ChannelRow where
  id : String
  workspaceId : String
  name : String
deriving DecidableEq, Repr

/-- A row of the `SubscriptionGroup` table: primary key `id`. -/
structure SubscriptionGroupRow where
  id : String
  workspaceId : String
  name : String
  type : SubscriptionGroupType
  channelId : String
deriving DecidableEq, Repr

/-- A row of the `Segment` table: primary key `id`,
unique key `(workspaceId, name)`. -/
structure SegmentRow where
  id : String
  workspaceId : String
  name : String
  definition : SegmentDefinition
  subscriptionGroupId : Option String
  resourceType : String
deriving DecidableEq, Repr

/-- A row of the `SegmentAssignment` table:
unique key `(workspaceId, userId, segmentId)`. -/
structure SegmentAssignmentRow where
  workspaceId : String
  userId : String
  segmentId : String
  inSegment : Bool
deriving DecidableEq, Repr

/-- The structured payload of `buildSubscriptionChangeEventInner`
(`messageRaw` is its JSON.stringify; the embedding keeps it structured since
stringify/parse round-trips). -/
structure SubscriptionChangeEventInner where
  userId : String
  timestamp : String
  messageId : String
  type : String
  event : String
  subscriptionId : String
  action : SubscriptionChange
deriving DecidableEq, Repr

/-- `InsertUserEvent = { messageId, messageRaw }`. -/
structure InsertUserEvent where
  messageId : String
  messageRaw : SubscriptionChangeEventInner
deriving DecidableEq, Repr

/-- The relational store: one list of rows per table, plus the append-only
user-event log (pairs of workspaceId and event, in append order). -/
structure Db where
  secrets : List SecretRow
  userProperties : List UserPropertyRow
  userPropertyAssignments : List UserPropertyAssignmentRow
  channels : List ChannelRow
  subscriptionGroups : List SubscriptionGroupRow
  segments : List SegmentRow
  segmentAssignments : List SegmentAssignmentRow
  userEvents : List (String × InsertUserEvent)
deriving DecidableEq, Repr

/-- Modelled from the spec: `SUBSCRIPTION_SECRET_NAME` constant of
isomorphic-lib (`constants.ts` is not part of the provided sources); the
spec's secret-store collaborator names the secret "subscription-secret". -/
def SUBSCRIPTION_SECRET_NAME : String := "subscription-secret"

/-- Modelled from the spec: `SUBSCRIPTION_MANAGEMENT_PAGE` constant of
isomorphic-lib (`constants.ts` is not part of the provided sources); the
spec says the path is a fixed dashboard route. -/
def SUBSCRIPTION_MANAGEMENT_PAGE : String := "/subscription-management"

/-! ### Keyed secure hash

`generateSecureHash` lives in `./crypto`, which is not part of the provided
sources.  Modelled from the spec: "deterministic, keyed, order-independent
hash over a small structured payload", "keyed (HMAC-style)" and
"collision-resistant at cryptographic strength".  The idealisation of a
collision-resistant keyed hash is an injective keyed encoding of the payload
into a string: deterministic by construction, and two distinct
(key, payload) pairs never collide.  The encoding below escapes the
separator so that injectivity is provable. -/

/-- Escape `%` and `$` in a character stream by prefixing them with `%`. -/
def escTok : List Char → List Char
  | [] => []
  | c :: cs => if c = '%' ∨ c = '$' then '%' :: c :: escTok cs else c :: escTok cs

/-- Decode one `$`-terminated escaped field, returning it and the rest. -/
def decTok : List Char → Option (List Char × List Char)
  | [] => none
  | '$' :: cs => some ([], cs)
  | '%' :: [] => none
  | '%' :: d :: ds => (decTok ds).map (fun p => (d :: p.1, p.2))
  | c :: cs => (decTok cs).map (fun p => (c :: p.1, p.2))

/-- One `$`-terminated escaped field. -/
def encField (s : String) : List Char := escTok s.data ++ ['$']

/-- The structured record hashed by `generateSubscriptionHash`:
`{ u: userId, w: workspaceId, i: identifier, k: identifierKey }`. -/
structure HashPayload where
  u : String
  w : String
  i : String
  k : String
deriving DecidableEq, Repr

/-- Modelled from the spec: `generateSecureHash({key, value})` of `./crypto`
(not in the provided sources) — a deterministic keyed collision-resistant
hash, idealised as the injective keyed encoding of the payload. -/
def generateSecureHash (key : String) (value : HashPayload) : String :=
  String.mk (encField key ++ encField value.u ++ encField value.w ++
    encField value.i ++ encField value.k)

/-- `generateSubscriptionHash`: hashes
`{u: userId, w: workspaceId, i: identifier, k: identifierKey}` keyed with
the subscription secret. -/
def generateSubscriptionHash (workspaceId userId identifierKey identifier
    subscriptionSecret : String) : String :=
  generateSecureHash subscriptionSecret
    { u := userId, w := workspaceId, i := identifier, k := identifierKey }

theorem decTok_esc (d : Char) (ds : List Char) :
    decTok ('%' :: d :: ds) = (decTok ds).map (fun p => (d :: p.1, p.2)) := rfl

theorem decTok_other (c : Char) (cs : List Char) (h1 : c ≠ '$') (h2 : c ≠ '%') :
    decTok (c :: cs) = (decTok cs).map (fun p => (c :: p.1, p.2)) := by
  rw [decTok.eq_def]
  split
  · simp_all
  · rename_i heq
    injection heq with hhd _
    exact absurd hhd h1
  · rename_i heq
    injection heq with hhd _
    exact absurd hhd h2
  · rename_i heq
    injection heq with hhd _
    exact absurd hhd h2
  · rename_i heq
    injection heq with hhd htl
    subst hhd; rw [htl]

theorem decTok_escTok (s rest : List Char) :
    decTok (escTok s ++ '$' :: rest) = some (s, rest) := by
  induction s with
  | nil => simp [escTok, decTok]
  | cons c cs ih =>
    by_cases hc : c = '%' ∨ c = '$'
    · have he : escTok (c :: cs) = '%' :: c :: escTok cs := by
        simp [escTok, hc]
      rw [he, List.cons_append, List.cons_append, decTok_esc, ih]
      rfl
    · push_neg at hc
      have he : escTok (c :: cs) = c :: escTok cs := by
        simp [escTok, hc.1, hc.2]
      rw [he, List.cons_append, decTok_other c _ hc.2 hc.1, ih]
      rfl

theorem encField_inj {a b : String} {ra rb : List Char}
    (h : encField a ++ ra = encField b ++ rb) : a = b ∧ ra = rb := by
  have ha : decTok (escTok a.data ++ '$' :: ra) = some (a.data, ra) :=
    decTok_escTok a.data ra
  have hb : decTok (escTok b.data ++ '$' :: rb) = some (b.data, rb) :=
    decTok_escTok b.data rb
  have hab : escTok a.data ++ '$' :: ra = escTok b.data ++ '$' :: rb := by
    simpa [encField, List.append_assoc] using h
  rw [hab, hb] at ha
  injection ha with ha
  rw [Prod.mk.injEq] at ha
  exact ⟨String.ext ha.1.symm, ha.2.symm⟩

theorem generateSecureHash_inj {k1 k2 : String} {v1 v2 : HashPayload}
    (h : generateSecureHash k1 v1 = generateSecureHash k2 v2) :
    k1 = k2 ∧ v1 = v2 := by
  unfold generateSecureHash at h
  have hl : encField k1 ++ (encField v1.u ++ (encField v1.w ++
      (encField v1.i ++ (encField v1.k ++ [])))) =
      encField k2 ++ (encField v2.u ++ (encField v2.w ++
      (encField v2.i ++ (encField v2.k ++ [])))) := by
    have := congrArg String.data h
    simpa [List.append_assoc] using this
  obtain ⟨hk, hl⟩ := encField_inj hl
  obtain ⟨hu, hl⟩ := encField_inj hl
  obtain ⟨hw, hl⟩ := encField_inj hl
  obtain ⟨hi, hl⟩ := encField_inj hl
  obtain ⟨hkey, -⟩ := encField_inj hl
  refine ⟨hk, ?_⟩
  cases v1; cases v2
  simp_all

theorem generateSubscriptionHash_inj
    {w1 u1 ik1 i1 s1 w2 u2 ik2 i2 s2 : String}
    (h : generateSubscriptionHash w1 u1 ik1 i1 s1 =
      generateSubscriptionHash w2 u2 ik2 i2 s2) :
    w1 = w2 ∧ u1 = u2 ∧ ik1 = ik2 ∧ i1 = i2 ∧ s1 = s2 := by
  obtain ⟨hs, hv⟩ := generateSecureHash_inj h
  rw [HashPayload.mk.injEq] at hv
  exact ⟨hv.2.1, hv.1, hv.2.2.2, hv.2.2.1, hs⟩

/-! ### Subscription link codec -/

/-- JS `JSON.stringify` applied to a string value: wrap in quotes, escaping
quote and backslash characters (the escapes relevant to identifiers; control
characters are not modelled). -/
def jsonEscape : List Char → List Char
  | [] => []
  | c :: cs =>
    if c = '"' ∨ c = '\\' then '\\' :: c :: jsonEscape cs else c :: jsonEscape cs

/-- `JSON.stringify(identifier)` for a string identifier. -/
def jsonStringify (s : String) : String :=
  String.mk ('"' :: jsonEscape s.data ++ ['"'])

/-- WebIDL record conversion performed by `new URLSearchParams(record)`:
every own enumerable property is kept, and its value is converted with
ToString, so a property holding `undefined` becomes the literal string
"undefined".  The query string is modelled as the resulting ordered list of
(name, value) pairs (URLSearchParams serialisation round-trips, so the
percent-encoded rendering is elided). -/
def urlSearchParamsOfRecord (record : List (String × Option String)) :
    List (String × String) :=
  record.map (fun p => (p.1, p.2.getD "undefined"))

/-- The URL returned by `generateSubscriptionChangeUrl`:
`/dashboard${SUBSCRIPTION_MANAGEMENT_PAGE}?${queryString}`, with the query
string kept as the ordered pair list produced by URLSearchParams. -/
structure ChangeUrl where
  path : String
  query : List (String × String)
deriving DecidableEq, Repr

/-- `generateSubscriptionChangeUrl`: computes the hash and builds the
query-parameter record
`{ w, i, ik, h, s: changedSubscription, sub: subscriptionChange === Subscribe ? "1" : "0" }`.
Note that the `s` property is present (holding `undefined`) even when
`changedSubscription` is omitted, and `sub` is always a defined string. -/
def generateSubscriptionChangeUrl (workspaceId userId subscriptionSecret
    identifier identifierKey : String) (changedSubscription : Option String)
    (subscriptionChange : Option SubscriptionChange) : ChangeUrl :=
  let hash := generateSubscriptionHash workspaceId userId identifierKey
    identifier subscriptionSecret
  let params : List (String × Option String) :=
    [("w", some workspaceId),
     ("i", some identifier),
     ("ik", some identifierKey),
     ("h", some hash),
     ("s", changedSubscription),
     ("sub", some (if subscriptionChange = some SubscriptionChange.Subscribe
        then "1" else "0"))]
  { path := "/dashboard" ++ SUBSCRIPTION_MANAGEMENT_PAGE
    query := urlSearchParamsOfRecord params }

/-- First value bound to a query parameter name, as `URLSearchParams.get`. -/
def queryGet (url : ChangeUrl) (key : String) : Option String :=
  (url.query.find? (fun p => p.1 == key)).map (fun p => p.2)

/-! ### Subscription lookup and verification -/

/-- `UserSubscriptionLookup` input record. -/
structure UserSubscriptionLookup where
  workspaceId : String
  identifier : String
  identifierKey : String
  hash : String
deriving DecidableEq, Repr

/-- Outcome of `lookupUserForSubscriptions`: `thrown` models a JS `throw`
escaping the function, `err` a neverthrow `err(new Error(message))`, and
`ok` a neverthrow `ok({ userId })`. -/
inductive LookupOutcome where
  | thrown (message : String)
  | err (message : String)
  | ok (userId : String)
deriving DecidableEq, Repr

/-- `prisma().secret.findUnique({where: {workspaceId_name}})`: a read,
returning the matching row (if any) and the unchanged store. -/
def secretFindUnique (db : Db) (workspaceId name : String) :
    Option SecretRow × Db :=
  (db.secrets.find? (fun s => s.workspaceId == workspaceId && s.name == name), db)

/-- `prisma().userProperty.findUnique({where: {workspaceId_name}})`: a read. -/
def userPropertyFindUnique (db : Db) (workspaceId name : String) :
    Option UserPropertyRow × Db :=
  (db.userProperties.find?
    (fun p => p.workspaceId == workspaceId && p.name == name), db)

/-- The included `UserPropertyAssignment` relation filtered by
`value = JSON.stringify(identifier)` (relation key `userPropertyId`). -/
def userPropertyAssignmentsFor (db : Db) (userPropertyId value : String) :
    List UserPropertyAssignmentRow :=
  db.userPropertyAssignments.filter
    (fun a => a.userPropertyId == userPropertyId && a.value == value)

/-- `lookupUserForSubscriptions`: fetches the workspace's subscription secret
and the user property (with assignments matching the serialised identifier),
returns `err "User not found"` when no assignment matches, throws
"Subscription secret not found" when the secret is absent, recomputes the
hash with the resolved userId, and returns `err "Hash mismatch"` or
`ok userId`.  Both prisma calls are reads, so the store comes back
unchanged. -/
def lookupUserForSubscriptions (db : Db) (l : UserSubscriptionLookup) :
    LookupOutcome × Db :=
  let r1 := secretFindUnique db l.workspaceId SUBSCRIPTION_SECRET_NAME
  let subscriptionSecret := r1.1
  let r2 := userPropertyFindUnique r1.2 l.workspaceId l.identifierKey
  let userProperties := r2.1
  let db2 := r2.2
  let assignments := match userProperties with
    | none => []
    | some p => userPropertyAssignmentsFor db2 p.id (jsonStringify l.identifier)
  match assignments.head? with
  | none => (LookupOutcome.err "User not found", db2)
  | some userPropertyAssignment =>
    match subscriptionSecret with
    | none => (LookupOutcome.thrown "Subscription secret not found", db2)
    | some secret =>
      let expectedHash := generateSubscriptionHash l.workspaceId
        userPropertyAssignment.userId l.identifierKey l.identifier secret.value
      if expectedHash ≠ l.hash then (LookupOutcome.err "Hash mismatch", db2)
      else (LookupOutcome.ok userPropertyAssignment.userId, db2)

/-! ### Claims about the hash, the link codec and the lookup -/

theorem secretFindUnique_snd (db : Db) (w n : String) :
    (secretFindUnique db w n).2 = db := rfl

theorem userPropertyFindUnique_snd (db : Db) (w n : String) :
    (userPropertyFindUnique db w n).2 = db := rfl

/-- C1: round-trip of link building and verification — if the workspace's
subscription secret equals the secret used to build the link and a
user-property assignment for `identifierKey` with value
`JSON.stringify(identifier)` maps to `userId`, then
`lookupUserForSubscriptions` applied to the workspaceId, identifier,
identifierKey and hash carried by the URL built by
`generateSubscriptionChangeUrl` returns ok with exactly that userId. -/
theorem subscription_link_roundtrip (db : Db)
    (workspaceId userId identifier identifierKey secret : String)
    (s : SecretRow) (p : UserPropertyRow) (a : UserPropertyAssignmentRow)
    (cs : Option String) (sc : Option SubscriptionChange)
    (hs : (secretFindUnique db workspaceId SUBSCRIPTION_SECRET_NAME).1 = some s)
    (hsv : s.value = secret)
    (hp : (userPropertyFindUnique db workspaceId identifierKey).1 = some p)
    (ha : (userPropertyAssignmentsFor db p.id
      (jsonStringify identifier)).head? = some a)
    (hau : a.userId = userId) :
    queryGet (generateSubscriptionChangeUrl workspaceId userId secret
        identifier identifierKey cs sc) "w" = some workspaceId ∧
    queryGet (generateSubscriptionChangeUrl workspaceId userId secret
        identifier identifierKey cs sc) "i" = some identifier ∧
    queryGet (generateSubscriptionChangeUrl workspaceId userId secret
        identifier identifierKey cs sc) "ik" = some identifierKey ∧
    ∃ hv, queryGet (generateSubscriptionChangeUrl workspaceId userId secret
        identifier identifierKey cs sc) "h" = some hv ∧
      (lookupUserForSubscriptions db
        ⟨workspaceId, identifier, identifierKey, hv⟩).1 =
        LookupOutcome.ok userId := by
  refine ⟨rfl, rfl, rfl, generateSubscriptionHash workspaceId userId
    identifierKey identifier secret, rfl, ?_⟩
  unfold lookupUserForSubscriptions
  simp only [secretFindUnique_snd, userPropertyFindUnique_snd, hs, hp, ha,
    hsv, hau]
  simp

/-- Store used to exercise the link round-trip and the hash-mismatch path:
one subscription secret, one "email" user property, one assignment mapping
the serialised identifier "a@b.com" to user "u1". -/
def dbLink : Db :=
  { secrets := [⟨"ws1", "subscription-secret", "s3cr3t"⟩]
    userProperties := [⟨"up1", "ws1", "email"⟩]
    userPropertyAssignments := [⟨"up1", "u1", "\"a@b.com\""⟩]
    channels := []
    subscriptionGroups := []
    segments := []
    segmentAssignments := []
    userEvents := [] }

theorem subscription_link_roundtrip_witness :
    queryGet (generateSubscriptionChangeUrl "ws1" "u1" "s3cr3t" "a@b.com"
        "email" none none) "w" = some "ws1" ∧
    queryGet (generateSubscriptionChangeUrl "ws1" "u1" "s3cr3t" "a@b.com"
        "email" none none) "i" = some "a@b.com" ∧
    queryGet (generateSubscriptionChangeUrl "ws1" "u1" "s3cr3t" "a@b.com"
        "email" none none) "ik" = some "email" ∧
    ∃ hv, queryGet (generateSubscriptionChangeUrl "ws1" "u1" "s3cr3t"
        "a@b.com" "email" none none) "h" = some hv ∧
      (lookupUserForSubscriptions dbLink ⟨"ws1", "a@b.com", "email", hv⟩).1 =
        LookupOutcome.ok "u1" :=
  subscription_link_roundtrip dbLink "ws1" "u1" "a@b.com" "email" "s3cr3t"
    ⟨"ws1", "subscription-secret", "s3cr3t"⟩ ⟨"up1", "ws1", "email"⟩
    ⟨"up1", "u1", "\"a@b.com\""⟩ none none (by decide) rfl (by decide)
    (by decide) rfl

/-- C2: the subscription hash is deterministic, sensitive to each of the
five fields {secret, userId, workspaceId, identifier, identifierKey}, and a
tuple whose recomputed hash differs from the supplied one makes the hash
equality check in `lookupUserForSubscriptions` fail with "Hash mismatch". -/
theorem subscription_hash_sensitivity :
    (∀ w u ik i s, generateSubscriptionHash w u ik i s =
      generateSubscriptionHash w u ik i s) ∧
    (∀ w u ik i s s1, s1 ≠ s → generateSubscriptionHash w u ik i s1 ≠
      generateSubscriptionHash w u ik i s) ∧
    (∀ w u ik i s u1, u1 ≠ u → generateSubscriptionHash w u1 ik i s ≠
      generateSubscriptionHash w u ik i s) ∧
    (∀ w u ik i s w1, w1 ≠ w → generateSubscriptionHash w1 u ik i s ≠
      generateSubscriptionHash w u ik i s) ∧
    (∀ w u ik i s i1, i1 ≠ i → generateSubscriptionHash w u ik i1 s ≠
      generateSubscriptionHash w u ik i s) ∧
    (∀ w u ik i s ik1, ik1 ≠ ik → generateSubscriptionHash w u ik1 i s ≠
      generateSubscriptionHash w u ik i s) ∧
    (∀ (db : Db) (l : UserSubscriptionLookup) (s : SecretRow)
        (p : UserPropertyRow) (a : UserPropertyAssignmentRow),
      (secretFindUnique db l.workspaceId SUBSCRIPTION_SECRET_NAME).1 =
        some s →
      (userPropertyFindUnique db l.workspaceId l.identifierKey).1 = some p →
      (userPropertyAssignmentsFor db p.id
        (jsonStringify l.identifier)).head? = some a →
      l.hash ≠ generateSubscriptionHash l.workspaceId a.userId
        l.identifierKey l.identifier s.value →
      (lookupUserForSubscriptions db l).1 = LookupOutcome.err "Hash mismatch") := by
  refine ⟨fun _ _ _ _ _ => rfl, ?_, ?_, ?_, ?_, ?_, ?_⟩
  · intro w u ik i s s1 hne h
    exact hne (generateSubscriptionHash_inj h).2.2.2.2
  · intro w u ik i s u1 hne h
    exact hne (generateSubscriptionHash_inj h).2.1
  · intro w u ik i s w1 hne h
    exact hne (generateSubscriptionHash_inj h).1
  · intro w u ik i s i1 hne h
    exact hne (generateSubscriptionHash_inj h).2.2.2.1
  · intro w u ik i s ik1 hne h
    exact hne (generateSubscriptionHash_inj h).2.2.1
  · intro db l s p a hs hp ha hne
    unfold lookupUserForSubscriptions
    simp only [secretFindUnique_snd, userPropertyFindUnique_snd, hs, hp, ha]
    simp [Ne.symm hne]

theorem subscription_hash_sensitivity_witness :
    (generateSubscriptionHash "ws1" "u1" "email" "a@b.com" "s3cr3t" =
      generateSubscriptionHash "ws1" "u1" "email" "a@b.com" "s3cr3t") ∧
    (generateSubscriptionHash "ws1" "u1" "email" "a@b.com" "other" ≠
      generateSubscriptionHash "ws1" "u1" "email" "a@b.com" "s3cr3t") ∧
    (generateSubscriptionHash "ws1" "u2" "email" "a@b.com" "s3cr3t" ≠
      generateSubscriptionHash "ws1" "u1" "email" "a@b.com" "s3cr3t") ∧
    (generateSubscriptionHash "ws2" "u1" "email" "a@b.com" "s3cr3t" ≠
      generateSubscriptionHash "ws1" "u1" "email" "a@b.com" "s3cr3t") ∧
    (generateSubscriptionHash "ws1" "u1" "email" "b@b.com" "s3cr3t" ≠
      generateSubscriptionHash "ws1" "u1" "email" "a@b.com" "s3cr3t") ∧
    (generateSubscriptionHash "ws1" "u1" "phone" "a@b.com" "s3cr3t" ≠
      generateSubscriptionHash "ws1" "u1" "email" "a@b.com" "s3cr3t") ∧
    (lookupUserForSubscriptions dbLink
      ⟨"ws1", "a@b.com", "email", "forged"⟩).1 =
      LookupOutcome.err "Hash mismatch" :=
  ⟨subscription_hash_sensitivity.1 "ws1" "u1" "email" "a@b.com" "s3cr3t",
   subscription_hash_sensitivity.2.1 "ws1" "u1" "email" "a@b.com" "s3cr3t"
     "other" (by decide),
   subscription_hash_sensitivity.2.2.1 "ws1" "u1" "email" "a@b.com" "s3cr3t"
     "u2" (by decide),
   subscription_hash_sensitivity.2.2.2.1 "ws1" "u1" "email" "a@b.com"
     "s3cr3t" "ws2" (by decide),
   subscription_hash_sensitivity.2.2.2.2.1 "ws1" "u1" "email" "a@b.com"
     "s3cr3t" "b@b.com" (by decide),
   subscription_hash_sensitivity.2.2.2.2.2.1 "ws1" "u1" "email" "a@b.com"
     "s3cr3t" "phone" (by decide),
   subscription_hash_sensitivity.2.2.2.2.2.2 dbLink
     ⟨"ws1", "a@b.com", "email", "forged"⟩
     ⟨"ws1", "subscription-secret", "s3cr3t"⟩ ⟨"up1", "ws1", "email"⟩
     ⟨"up1", "u1", "\"a@b.com\""⟩ (by decide) (by decide) (by decide)
     (by decide)⟩

/-- An entirely empty store: the secret lookup yields nothing, and no
user-property assignment exists. -/
def dbEmpty : Db :=
  { secrets := []
    userProperties := []
    userPropertyAssignments := []
    channels := []
    subscriptionGroups := []
    segmentAssignments := []
    segments := []
    userEvents := [] }

/-- C4 counterexample: on a store whose secret lookup yields nothing and
which has no matching user-property assignment, `lookupUserForSubscriptions`
returns the typed error "User not found" instead of throwing — the
assignment check runs before the secret check, so a missing secret does not
always raise. -/
theorem lookup_missing_secret_counterexample :
    (secretFindUnique dbEmpty "ws1" SUBSCRIPTION_SECRET_NAME).1 = none ∧
    (lookupUserForSubscriptions dbEmpty ⟨"ws1", "a@b.com", "email", "h"⟩).1 =
      LookupOutcome.err "User not found" := by
  exact ⟨rfl, rfl⟩

/-- C4 amended: whenever the workspace's subscription secret is absent AND a
matching user-property assignment exists, `lookupUserForSubscriptions`
throws "Subscription secret not found" rather than returning a typed error
(when no assignment matches, the typed error "User not found" is returned
first). -/
theorem lookup_missing_secret_throws (db : Db) (l : UserSubscriptionLookup)
    (p : UserPropertyRow) (a : UserPropertyAssignmentRow)
    (hs : (secretFindUnique db l.workspaceId SUBSCRIPTION_SECRET_NAME).1 = none)
    (hp : (userPropertyFindUnique db l.workspaceId l.identifierKey).1 = some p)
    (ha : (userPropertyAssignmentsFor db p.id
      (jsonStringify l.identifier)).head? = some a) :
    (lookupUserForSubscriptions db l).1 =
      LookupOutcome.thrown "Subscription secret not found" := by
  unfold lookupUserForSubscriptions
  simp only [secretFindUnique_snd, userPropertyFindUnique_snd, hs, hp, ha]

/-- Store with a matching user-property assignment but no secret. -/
def dbNoSecret : Db :=
  { secrets := []
    userProperties := [⟨"up1", "ws1", "email"⟩]
    userPropertyAssignments := [⟨"up1", "u1", "\"a@b.com\""⟩]
    channels := []
    subscriptionGroups := []
    segments := []
    segmentAssignments := []
    userEvents := [] }

theorem lookup_missing_secret_throws_witness :
    (lookupUserForSubscriptions dbNoSecret ⟨"ws1", "a@b.com", "email", "h"⟩).1 =
      LookupOutcome.thrown "Subscription secret not found" :=
  lookup_missing_secret_throws dbNoSecret ⟨"ws1", "a@b.com", "email", "h"⟩
    ⟨"up1", "ws1", "email"⟩ ⟨"up1", "u1", "\"a@b.com\""⟩ (by decide)
    (by decide) (by decide)

/-- C8 counterexample: with `changedSubscription` and `subscriptionChange`
both omitted, the produced query still carries a `sub` parameter (value "0")
and an `s` parameter (value "undefined", from URLSearchParams stringifying
the `undefined` record property) — contradicting the claim that only
`w`, `i`, `ik` and `h` appear. -/
theorem change_url_omitted_params_counterexample :
    ("sub", "0") ∈ (generateSubscriptionChangeUrl "ws1" "u1" "s3cr3t"
      "a@b.com" "email" none none).query ∧
    ("s", "undefined") ∈ (generateSubscriptionChangeUrl "ws1" "u1" "s3cr3t"
      "a@b.com" "email" none none).query ∧
    ((generateSubscriptionChangeUrl "ws1" "u1" "s3cr3t" "a@b.com" "email"
      none none).query.map Prod.fst ≠ ["w", "i", "ik", "h"]) := by
  refine ⟨?_, ?_, by decide⟩ <;>
    simp [generateSubscriptionChangeUrl, urlSearchParamsOfRecord]

/-- C8 amended: the query always carries the six parameters
`w, i, ik, h, s, sub` in that order; when no single-group change is linked,
`s` holds the literal string "undefined" and `sub` is "0"; when a
single-group change is linked, `s` carries the target group id and `sub` is
"1" for Subscribe and "0" for UnSubscribe (and "0" when the change kind is
omitted). -/
theorem change_url_params (w u sec i ik : String) :
    (∀ sc, (generateSubscriptionChangeUrl w u sec i ik none sc).query =
      [("w", w), ("i", i), ("ik", ik),
       ("h", generateSubscriptionHash w u ik i sec), ("s", "undefined"),
       ("sub", if sc = some SubscriptionChange.Subscribe then "1" else "0")]) ∧
    (∀ gid sc, (generateSubscriptionChangeUrl w u sec i ik (some gid) sc).query =
      [("w", w), ("i", i), ("ik", ik),
       ("h", generateSubscriptionHash w u ik i sec), ("s", gid),
       ("sub", if sc = some SubscriptionChange.Subscribe then "1" else "0")]) ∧
    (∀ cs, "1" ∈ (generateSubscriptionChangeUrl w u sec i ik cs
        (some SubscriptionChange.Subscribe)).query.map Prod.snd) ∧
    (∀ cs sc, sc ≠ some SubscriptionChange.Subscribe →
      ((generateSubscriptionChangeUrl w u sec i ik cs sc).query.getLast?) =
        some ("sub", "0")) := by
  refine ⟨fun sc => rfl, fun gid sc => rfl, fun cs => ?_, fun cs sc hsc => ?_⟩
  · simp [generateSubscriptionChangeUrl, urlSearchParamsOfRecord]
  · simp [generateSubscriptionChangeUrl, urlSearchParamsOfRecord, hsc]

theorem change_url_params_witness :
    ((generateSubscriptionChangeUrl "ws1" "u1" "s3cr3t" "a@b.com" "email"
      none none).query =
      [("w", "ws1"), ("i", "a@b.com"), ("ik", "email"),
       ("h", generateSubscriptionHash "ws1" "u1" "email" "a@b.com" "s3cr3t"),
       ("s", "undefined"), ("sub", "0")]) ∧
    ((generateSubscriptionChangeUrl "ws1" "u1" "s3cr3t" "a@b.com" "email"
      (some "g1") (some SubscriptionChange.Subscribe)).query =
      [("w", "ws1"), ("i", "a@b.com"), ("ik", "email"),
       ("h", generateSubscriptionHash "ws1" "u1" "email" "a@b.com" "s3cr3t"),
       ("s", "g1"), ("sub", "1")]) ∧
    ("1" ∈ (generateSubscriptionChangeUrl "ws1" "u1" "s3cr3t" "a@b.com"
      "email" (some "g1")
      (some SubscriptionChange.Subscribe)).query.map Prod.snd) ∧
    ((generateSubscriptionChangeUrl "ws1" "u1" "s3cr3t" "a@b.com" "email"
      (some "g1") (some SubscriptionChange.UnSubscribe)).query.getLast? =
      some ("sub", "0")) :=
  ⟨by simpa using
      (change_url_params "ws1" "u1" "s3cr3t" "a@b.com" "email").1 none,
   by simpa using
      (change_url_params "ws1" "u1" "s3cr3t" "a@b.com" "email").2.1 "g1"
        (some SubscriptionChange.Subscribe),
   (change_url_params "ws1" "u1" "s3cr3t" "a@b.com" "email").2.2.1
     (some "g1"),
   (change_url_params "ws1" "u1" "s3cr3t" "a@b.com" "email").2.2.2
     (some "g1") (some SubscriptionChange.UnSubscribe) (by decide)⟩

/-- C9: link anonymity — two calls of `generateSubscriptionChangeUrl`
differing only in `userId` produce the same path, the same parameter names
in the same order, and identical parameter values everywhere except the hash
parameter `h`; the userId reaches the query only through the hash input. -/
theorem change_url_anonymous (w sec i ik : String) (cs : Option String)
    (sc : Option SubscriptionChange) (u1 u2 : String) :
    (generateSubscriptionChangeUrl w u1 sec i ik cs sc).path =
      (generateSubscriptionChangeUrl w u2 sec i ik cs sc).path ∧
    (generateSubscriptionChangeUrl w u1 sec i ik cs sc).query.map Prod.fst =
      (generateSubscriptionChangeUrl w u2 sec i ik cs sc).query.map Prod.fst ∧
    (generateSubscriptionChangeUrl w u1 sec i ik cs sc).query.filter
        (fun p => p.1 ≠ "h") =
      (generateSubscriptionChangeUrl w u2 sec i ik cs sc).query.filter
        (fun p => p.1 ≠ "h") := by
  refine ⟨rfl, rfl, ?_⟩
  simp [generateSubscriptionChangeUrl, urlSearchParamsOfRecord,
    List.filter]

/-- C10: `lookupUserForSubscriptions` is read-only — for every store and
every input, whatever the outcome (ok, typed error, or thrown fault), the
store after the call is the store before it. -/
theorem lookup_read_only (db : Db) (l : UserSubscriptionLookup) :
    (lookupUserForSubscriptions db l).2 = db := by
  unfold lookupUserForSubscriptions
  simp only [secretFindUnique_snd, userPropertyFindUnique_snd]
  split
  · rfl
  · split
    · rfl
    · split <;> rfl

/-! ### Subscription state updater -/

/-- Modelled from the spec: the event name `InternalEventType.SubscriptionChange`
(the enum's string value is in isomorphic-lib, not in the provided sources);
the spec's data model writes `event: "SubscriptionChange"`. -/
def SUBSCRIPTION_CHANGE_EVENT : String := "SubscriptionChange"

/-- `buildSubscriptionChangeEventInner`: the track-event payload
`{userId, timestamp, messageId, type: "track", event, properties:
{subscriptionId, action}}` (properties inlined). -/
def buildSubscriptionChangeEventInner (messageId userId subscriptionGroupId
    timestamp : String) (action : SubscriptionChange) :
    SubscriptionChangeEventInner :=
  { userId := userId
    timestamp := timestamp
    messageId := messageId
    type := "track"
    event := SUBSCRIPTION_CHANGE_EVENT
    subscriptionId := subscriptionGroupId
    action := action }

/-- `buildSubscriptionChangeEvent`: wraps the inner payload as an
`InsertUserEvent`.  The source defaults `messageId` to a fresh `uuid()` and
`currentTime` to `new Date()`; the embedding takes both as explicit inputs
(`timestamp` is the ISO rendering of `currentTime`). -/
def buildSubscriptionChangeEvent (messageId userId subscriptionGroupId
    timestamp : String) (action : SubscriptionChange) : InsertUserEvent :=
  { messageId := messageId
    messageRaw := buildSubscriptionChangeEventInner messageId userId
      subscriptionGroupId timestamp action }

/-- Modelled from the spec: `insertUserEvents` of `./userEvents` (not in the
provided sources); the spec's event-log collaborator is
`appendEvents(workspaceId, events[])`, an append to the log. -/
def insertUserEvents (db : Db) (workspaceId : String)
    (userEvents : List InsertUserEvent) : Db :=
  { db with userEvents := db.userEvents ++ userEvents.map (fun e => (workspaceId, e)) }

/-- `prisma().segment.findMany({where: {workspaceId, subscriptionGroupId:
{in: Object.keys(changes)}}})`: a read. -/
def segmentFindManyForGroups (db : Db) (workspaceId : String)
    (groupIds : List String) : List SegmentRow × Db :=
  (db.segments.filter (fun s => s.workspaceId == workspaceId &&
    match s.subscriptionGroupId with
    | some gid => groupIds.contains gid
    | none => false), db)

/-- `segments.reduce(...)` building `segmentBySubscriptionGroupId`: segments
without a `subscriptionGroupId` are skipped, later entries overwrite earlier
ones (object-spread semantics). -/
def segmentBySubscriptionGroupId (segments : List SegmentRow) :
    String → Option SegmentRow :=
  segments.foldl
    (fun acc segment =>
      match segment.subscriptionGroupId with
      | none => acc
      | some gid => fun k => if k == gid then some segment else acc k)
    (fun _ => none)

/-- `prisma().segmentAssignment.upsert` keyed by
`(workspaceId, userId, segmentId)`: overwrite `inSegment` on every matching
row, or append a new row when none matches. -/
def segmentAssignmentUpsert (rows : List SegmentAssignmentRow)
    (workspaceId userId segmentId : String) (inSegment : Bool) :
    List SegmentAssignmentRow :=
  if rows.any (fun r => r.workspaceId == workspaceId && r.userId == userId &&
      r.segmentId == segmentId) then
    rows.map (fun r =>
      if r.workspaceId == workspaceId && r.userId == userId &&
          r.segmentId == segmentId then
        { r with inSegment := inSegment }
      else r)
  else rows ++ [⟨workspaceId, userId, segmentId, inSegment⟩]

/-- The segment-assignment writes issued by `updateUserSubscriptions`: the
source's `changePairs.flatMap` returning `[]` for a pair whose groupId has
no backing segment, and one upsert (recorded as `(segmentId, inSegment)`)
otherwise. -/
def segmentAssignmentUpdatesOf (segMap : String → Option SegmentRow)
    (changes : List (String × Bool)) : List (String × Bool) :=
  changes.flatMap (fun p =>
    match segMap p.1 with
    | none => []
    | some segment => [(segment.id, p.2)])

/-- The audit events built by `updateUserSubscriptions`: one per change pair,
action Subscribe when the desired value is true and UnSubscribe when false.
`mkMessageId` supplies the fresh uuid for each pair (indexed in pair order)
and `now` the shared ISO timestamp. -/
def userEventsOf (userId now : String) (mkMessageId : Nat → String)
    (changes : List (String × Bool)) : List InsertUserEvent :=
  changes.enum.map (fun p =>
    buildSubscriptionChangeEvent (mkMessageId p.1) userId p.2.1 now
      (if p.2.2 then SubscriptionChange.Subscribe
       else SubscriptionChange.UnSubscribe))

/-- `updateUserSubscriptions`: loads the segments backing the changed group
ids, builds one audit event per change pair, builds one assignment upsert
per pair whose segment exists (missing segments are logged and skipped), and
issues all assignment upserts together with the batch event append. -/
def updateUserSubscriptions (db : Db) (workspaceId userId : String)
    (changes : List (String × Bool)) (mkMessageId : Nat → String)
    (now : String) : Db :=
  let r := segmentFindManyForGroups db workspaceId (changes.map Prod.fst)
  let segments := r.1
  let db1 := r.2
  let segMap := segmentBySubscriptionGroupId segments
  let userEvents := userEventsOf userId now mkMessageId changes
  let writes := segmentAssignmentUpdatesOf segMap changes
  let db2 :=
    { db1 with segmentAssignments :=
        (writes.foldl
          (fun rows w => segmentAssignmentUpsert rows workspaceId userId w.1 w.2)
          db1.segmentAssignments) }
  insertUserEvents db2 workspaceId userEvents

/-! ### Subscription group registry -/

/-- `prisma().channel.findUnique({where: {workspaceId_name}})`: a read. -/
def channelFindUnique (db : Db) (workspaceId name : String) :
    Option ChannelRow × Db :=
  (db.channels.find? (fun c => c.workspaceId == workspaceId && c.name == name), db)

/-- The internal segment definition written for subscription group `id`:
a single entry node of kind SubscriptionGroup referencing the group. -/
def subscriptionGroupSegmentDefinition (id : String) : SegmentDefinition :=
  { entryNode :=
      { type := SegmentNodeType.SubscriptionGroup
        id := "1"
        subscriptionGroupId := id }
    nodes := [] }

/-- The deterministic name of the backing segment: `subscriptionGroup-<id>`. -/
def subscriptionGroupSegmentName (id : String) : String :=
  "subscriptionGroup-" ++ id

/-- `prisma().subscriptionGroup.upsert({where: {id}, create, update: {name,
type}})`: create the full row when no row has this id, otherwise update only
`name` and `type` of the matching row; returns the resulting row. -/
def subscriptionGroupUpsert (rows : List SubscriptionGroupRow)
    (id name : String) (type : SubscriptionGroupType)
    (workspaceId channelId : String) :
    SubscriptionGroupRow × List SubscriptionGroupRow :=
  match rows.find? (fun g => g.id == id) with
  | some g0 =>
    ({ g0 with name := name, type := type },
     rows.map (fun g =>
       if g.id == id then { g with name := name, type := type } else g))
  | none =>
    (⟨id, workspaceId, name, type, channelId⟩,
     rows ++ [⟨id, workspaceId, name, type, channelId⟩])

/-- `prisma().segment.upsert({where: {workspaceId_name}, create, update: {}})`:
the update clause is empty, so an existing row is left untouched; otherwise
the create row is appended. -/
def segmentUpsertByName (rows : List SegmentRow) (workspaceId name : String)
    (createRow : SegmentRow) : List SegmentRow :=
  if rows.any (fun s => s.workspaceId == workspaceId && s.name == name) then
    rows
  else rows ++ [createRow]

/-- `upsertSubscriptionGroup`: requires the workspace's "email" channel
(typed error otherwise, no writes), then runs the group upsert and the
backing-segment upsert as one transaction.  `freshSegmentId` supplies the
id prisma would generate for a newly created segment row. -/
def upsertSubscriptionGroup (db : Db) (id name : String)
    (type : SubscriptionGroupType) (workspaceId freshSegmentId : String) :
    Except String SubscriptionGroupRow × Db :=
  let segmentName := subscriptionGroupSegmentName id
  let segmentDefinition := subscriptionGroupSegmentDefinition id
  let rc := channelFindUnique db workspaceId "email"
  match rc.1 with
  | none => (Except.error "Email channel not found", rc.2)
  | some emailChannel =>
    let gr := subscriptionGroupUpsert rc.2.subscriptionGroups id name type
      workspaceId emailChannel.id
    let segs := segmentUpsertByName rc.2.segments workspaceId segmentName
      ⟨freshSegmentId, workspaceId, segmentName, segmentDefinition, some id,
       "Internal"⟩
    (Except.ok gr.1,
     { rc.2 with subscriptionGroups := gr.2, segments := segs })

/-! ### Subscription listing -/

/-- `UserSubscriptionResource = { id, name, isSubscribed }`. -/
structure UserSubscriptionResource where
  id : String
  name : String
  isSubscribed : Bool
deriving DecidableEq, Repr

/-- The included `Segment` relation of a subscription group: segments whose
`subscriptionGroupId` references the group. -/
def includedSegments (db : Db) (g : SubscriptionGroupRow) : List SegmentRow :=
  db.segments.filter (fun s => s.subscriptionGroupId == some g.id)

/-- The included `SegmentAssignment` relation of a segment, filtered by
`userId`. -/
def includedAssignments (db : Db) (s : SegmentRow) (userId : String) :
    List SegmentAssignmentRow :=
  db.segmentAssignments.filter
    (fun a => a.segmentId == s.id && a.userId == userId)

/-- `prisma().subscriptionGroup.findMany({where: {workspaceId}, orderBy:
{name: "asc"}})`. -/
def subscriptionGroupFindManyOrdered (db : Db) (workspaceId : String) :
    List SubscriptionGroupRow :=
  (db.subscriptionGroups.filter (fun g => g.workspaceId == workspaceId)).mergeSort
    (fun a b => decide (a.name ≤ b.name))

/-- One iteration of the `getUserSubscriptions` loop: a group whose
`Segment[0]` is missing is logged and skipped (`continue`); otherwise
`isSubscribed` is `segment.SegmentAssignment[0]?.inSegment === true` and the
entry `{id, name, isSubscribed}` is pushed. -/
def userSubscriptionEntry (db : Db) (userId : String)
    (g : SubscriptionGroupRow) : Option UserSubscriptionResource :=
  match (includedSegments db g).head? with
  | none => none
  | some segment =>
    let inSegment := match (includedAssignments db segment userId).head? with
      | some a => a.inSegment
      | none => false
    some ⟨g.id, g.name, inSegment⟩

/-- `getUserSubscriptions`: the loop over the name-ordered groups of the
workspace. -/
def getUserSubscriptions (db : Db) (workspaceId userId : String) :
    List UserSubscriptionResource :=
  (subscriptionGroupFindManyOrdered db workspaceId).filterMap
    (userSubscriptionEntry db userId)

/-! ### Claims about the state updater -/

theorem segmentFindManyForGroups_snd (db : Db) (ws : String)
    (gids : List String) : (segmentFindManyForGroups db ws gids).2 = db := rfl

theorem segmentAssignmentUpsert_exists (rows : List SegmentAssignmentRow)
    (ws user k : String) (b : Bool) :
    ∃ r ∈ segmentAssignmentUpsert rows ws user k b,
      r.workspaceId = ws ∧ r.userId = user ∧ r.segmentId = k ∧
      r.inSegment = b := by
  unfold segmentAssignmentUpsert
  by_cases h : rows.any (fun r => r.workspaceId == ws && r.userId == user &&
      r.segmentId == k)
  · rw [if_pos h]
    obtain ⟨r, hr, hcond⟩ := List.any_eq_true.mp h
    refine ⟨{ r with inSegment := b }, List.mem_map.mpr ⟨r, hr, ?_⟩, ?_⟩
    · rw [if_pos hcond]
    · simp only [Bool.and_eq_true, beq_iff_eq] at hcond
      exact ⟨hcond.1.1, hcond.1.2, hcond.2, rfl⟩
  · rw [if_neg h]
    exact ⟨⟨ws, user, k, b⟩, List.mem_append_right _ (List.mem_singleton.mpr rfl),
      rfl, rfl, rfl, rfl⟩

theorem segmentAssignmentUpsert_preserves (rows : List SegmentAssignmentRow)
    (ws user k : String) (b : Bool) (r : SegmentAssignmentRow) (hr : r ∈ rows)
    (hne : r.segmentId ≠ k) :
    r ∈ segmentAssignmentUpsert rows ws user k b := by
  unfold segmentAssignmentUpsert
  by_cases h : rows.any (fun r => r.workspaceId == ws && r.userId == user &&
      r.segmentId == k)
  · rw [if_pos h]
    refine List.mem_map.mpr ⟨r, hr, ?_⟩
    rw [if_neg (by simp [hne])]
  · rw [if_neg h]
    exact List.mem_append_left _ hr

theorem foldl_upsert_preserves (writes : List (String × Bool))
    (ws user : String) (rows : List SegmentAssignmentRow)
    (r : SegmentAssignmentRow) (hr : r ∈ rows)
    (hne : ∀ w ∈ writes, r.segmentId ≠ w.1) :
    r ∈ writes.foldl
      (fun rows w => segmentAssignmentUpsert rows ws user w.1 w.2) rows := by
  induction writes generalizing rows with
  | nil => exact hr
  | cons w ws1 ih =>
    exact ih _
      (segmentAssignmentUpsert_preserves rows ws user w.1 w.2 r hr
        (hne w (List.mem_cons_self w ws1)))
      (fun w1 hw1 => hne w1 (List.mem_cons_of_mem w hw1))

theorem foldl_upsert_result (writes : List (String × Bool)) (ws user : String)
    (rows : List SegmentAssignmentRow) (k : String) (b : Bool)
    (hmem : (k, b) ∈ writes) (hnd : (writes.map Prod.fst).Nodup) :
    ∃ r ∈ writes.foldl
      (fun rows w => segmentAssignmentUpsert rows ws user w.1 w.2) rows,
      r.workspaceId = ws ∧ r.userId = user ∧ r.segmentId = k ∧
      r.inSegment = b := by
  induction writes generalizing rows with
  | nil => cases hmem
  | cons w ws1 ih =>
    rcases List.mem_cons.mp hmem with heq | htail
    · subst heq
      obtain ⟨r, hr, hprops⟩ := segmentAssignmentUpsert_exists rows ws user k b
      refine ⟨r, ?_, hprops⟩
      simp only [List.foldl_cons]
      refine foldl_upsert_preserves ws1 ws user _ r hr ?_
      intro w1 hw1
      rw [hprops.2.2.1]
      intro hk
      have : w1.1 ∈ ws1.map Prod.fst := List.mem_map_of_mem Prod.fst hw1
      rw [← hk] at this
      exact (List.nodup_cons.mp (by simpa using hnd)).1 this
    · exact ih _ htail (List.nodup_cons.mp (by simpa using hnd)).2

theorem segmentAssignmentUpdatesOf_eq_filterMap
    (segMap : String → Option SegmentRow) (changes : List (String × Bool)) :
    segmentAssignmentUpdatesOf segMap changes =
      changes.filterMap (fun p => (segMap p.1).map (fun s => (s.id, p.2))) := by
  induction changes with
  | nil => rfl
  | cons p ps ih =>
    unfold segmentAssignmentUpdatesOf at ih ⊢
    cases h : segMap p.1 <;>
      simp [List.flatMap_cons, List.filterMap_cons, h, ih]

/-- C3: best-effort batch update — every change pair appends exactly one
audit event whose action is Subscribe when the desired value is true and
UnSubscribe when false, even for pairs without a backing segment; a pair
whose groupId has no backing segment contributes no segment-assignment
write; and every pair whose segment exists still gets its assignment
upserted (a missing segment never prevents the other pairs' writes). -/
theorem update_subscriptions_best_effort (db : Db) (ws user : String)
    (changes : List (String × Bool)) (mkMessageId : Nat → String)
    (now : String)
    (hkeys : ((segmentAssignmentUpdatesOf
      (segmentBySubscriptionGroupId
        (segmentFindManyForGroups db ws (changes.map Prod.fst)).1)
      changes).map Prod.fst).Nodup) :
    ((updateUserSubscriptions db ws user changes mkMessageId now).userEvents =
      db.userEvents ++ changes.enum.map (fun p =>
        (ws, buildSubscriptionChangeEvent (mkMessageId p.1) user p.2.1 now
          (if p.2.2 then SubscriptionChange.Subscribe
           else SubscriptionChange.UnSubscribe)))) ∧
    ((updateUserSubscriptions db ws user changes mkMessageId now).segmentAssignments =
      (changes.filterMap (fun p =>
        ((segmentBySubscriptionGroupId
          (segmentFindManyForGroups db ws (changes.map Prod.fst)).1) p.1).map
          (fun s => (s.id, p.2)))).foldl
        (fun rows w => segmentAssignmentUpsert rows ws user w.1 w.2)
        db.segmentAssignments) ∧
    (∀ p ∈ changes, ∀ s : SegmentRow,
      (segmentBySubscriptionGroupId
        (segmentFindManyForGroups db ws (changes.map Prod.fst)).1) p.1 =
        some s →
      ∃ r ∈ (updateUserSubscriptions db ws user changes mkMessageId
          now).segmentAssignments,
        r.workspaceId = ws ∧ r.userId = user ∧ r.segmentId = s.id ∧
        r.inSegment = p.2) := by
  refine ⟨?_, ?_, ?_⟩
  · unfold updateUserSubscriptions insertUserEvents userEventsOf
    simp only [List.map_map, segmentFindManyForGroups_snd]
    rfl
  · unfold updateUserSubscriptions insertUserEvents
    simp only [segmentFindManyForGroups_snd]
    rw [segmentAssignmentUpdatesOf_eq_filterMap]
  · intro p hp s hseg
    have hmem : (s.id, p.2) ∈ segmentAssignmentUpdatesOf
        (segmentBySubscriptionGroupId
          (segmentFindManyForGroups db ws (changes.map Prod.fst)).1)
        changes := by
      unfold segmentAssignmentUpdatesOf
      refine List.mem_flatMap.mpr ⟨p, hp, ?_⟩
      rw [hseg]
      exact List.mem_singleton.mpr rfl
    obtain ⟨r, hr, hprops⟩ := foldl_upsert_result _ ws user
      db.segmentAssignments s.id p.2 hmem hkeys
    exact ⟨r, hr, hprops⟩

/-- Store used to exercise the best-effort batch update: segments backing
groups g1 and g2; group g3 has no backing segment. -/
def dbUpd : Db :=
  { secrets := []
    userProperties := []
    userPropertyAssignments := []
    channels := []
    subscriptionGroups := []
    segments :=
      [⟨"seg1", "ws1", "subscriptionGroup-g1",
        subscriptionGroupSegmentDefinition "g1", some "g1", "Internal"⟩,
       ⟨"seg2", "ws1", "subscriptionGroup-g2",
        subscriptionGroupSegmentDefinition "g2", some "g2", "Internal"⟩]
    segmentAssignments := []
    userEvents := [] }

theorem update_subscriptions_best_effort_witness :
    ((updateUserSubscriptions dbUpd "ws1" "u1"
        [("g1", true), ("g3", false), ("g2", false)] (fun n => toString n)
        "t0").userEvents =
      dbUpd.userEvents ++ [("g1", true), ("g3", false), ("g2", false)].enum.map
        (fun p => ("ws1", buildSubscriptionChangeEvent
          ((fun n => toString n) p.1) "u1" p.2.1 "t0"
          (if p.2.2 then SubscriptionChange.Subscribe
           else SubscriptionChange.UnSubscribe)))) ∧
    ((updateUserSubscriptions dbUpd "ws1" "u1"
        [("g1", true), ("g3", false), ("g2", false)] (fun n => toString n)
        "t0").segmentAssignments =
      ([("g1", true), ("g3", false), ("g2", false)].filterMap (fun p =>
        ((segmentBySubscriptionGroupId
          (segmentFindManyForGroups dbUpd "ws1"
            ([("g1", true), ("g3", false), ("g2", false)].map Prod.fst)).1)
          p.1).map (fun s => (s.id, p.2)))).foldl
        (fun rows w => segmentAssignmentUpsert rows "ws1" "u1" w.1 w.2)
        dbUpd.segmentAssignments) ∧
    (∃ r ∈ (updateUserSubscriptions dbUpd "ws1" "u1"
        [("g1", true), ("g3", false), ("g2", false)] (fun n => toString n)
        "t0").segmentAssignments,
      r.workspaceId = "ws1" ∧ r.userId = "u1" ∧ r.segmentId = "seg2" ∧
      r.inSegment = false) := by
  obtain ⟨h1, h2, h3⟩ := update_subscriptions_best_effort dbUpd "ws1" "u1"
    [("g1", true), ("g3", false), ("g2", false)] (fun n => toString n) "t0"
    (by decide)
  refine ⟨h1, h2, ?_⟩
  exact h3 ("g2", false) (by decide)
    ⟨"seg2", "ws1", "subscriptionGroup-g2",
      subscriptionGroupSegmentDefinition "g2", some "g2", "Internal"⟩
    (by decide)

/-! ### Claims about the subscription group registry -/

theorem subscriptionGroupUpsert_mem (rows : List SubscriptionGroupRow)
    (id name : String) (ty : SubscriptionGroupType) (ws chid : String) :
    ∃ g ∈ (subscriptionGroupUpsert rows id name ty ws chid).2, g.id = id := by
  unfold subscriptionGroupUpsert
  cases hfind : rows.find? (fun g => g.id == id) with
  | none =>
    exact ⟨⟨id, ws, name, ty, chid⟩,
      List.mem_append_right _ (List.mem_singleton.mpr rfl), rfl⟩
  | some g0 =>
    have hg0 : g0.id = id := by
      simpa using List.find?_some hfind
    refine ⟨{ g0 with name := name, type := ty },
      List.mem_map.mpr ⟨g0, List.mem_of_find?_eq_some hfind, ?_⟩, hg0⟩
    rw [if_pos (by simpa using hg0)]

theorem subscriptionGroupUpsert_update (rows : List SubscriptionGroupRow)
    (id name : String) (ty : SubscriptionGroupType) (ws chid : String)
    (g0 : SubscriptionGroupRow)
    (hfind : rows.find? (fun g => g.id == id) = some g0) :
    (subscriptionGroupUpsert rows id name ty ws chid).2 =
      rows.map (fun g =>
        if g.id == id then { g with name := name, type := ty } else g) := by
  unfold subscriptionGroupUpsert
  rw [hfind]

theorem segmentUpsertByName_mem (rows : List SegmentRow) (ws n : String)
    (createRow : SegmentRow) (hw : createRow.workspaceId = ws)
    (hn : createRow.name = n) :
    ∃ s ∈ segmentUpsertByName rows ws n createRow,
      s.workspaceId = ws ∧ s.name = n := by
  unfold segmentUpsertByName
  by_cases hany : rows.any (fun s => s.workspaceId == ws && s.name == n)
  · rw [if_pos hany]
    obtain ⟨s, hs, hcond⟩ := List.any_eq_true.mp hany
    simp only [Bool.and_eq_true, beq_iff_eq] at hcond
    exact ⟨s, hs, hcond⟩
  · rw [if_neg hany]
    exact ⟨createRow, List.mem_append_right _ (List.mem_singleton.mpr rfl),
      hw, hn⟩

theorem upsertSubscriptionGroup_eq (db : Db) (id name : String)
    (ty : SubscriptionGroupType) (ws fresh : String) :
    upsertSubscriptionGroup db id name ty ws fresh =
      match db.channels.find? (fun c => c.workspaceId == ws &&
          c.name == "email") with
      | none => (Except.error "Email channel not found", db)
      | some c =>
        (Except.ok (subscriptionGroupUpsert db.subscriptionGroups id name ty
          ws c.id).1,
         { db with
            subscriptionGroups := (subscriptionGroupUpsert
              db.subscriptionGroups id name ty ws c.id).2
            segments := segmentUpsertByName db.segments ws
              (subscriptionGroupSegmentName id)
              ⟨fresh, ws, subscriptionGroupSegmentName id,
               subscriptionGroupSegmentDefinition id, some id,
               "Internal"⟩ }) := rfl

/-- C5: one-to-one group/segment invariant — under the store invariant that
at most one segment carries the name `subscriptionGroup-<id>` in the
workspace and any such segment already has the canonical definition,
a failed `upsertSubscriptionGroup` leaves the store untouched (the group
write and the segment write happen atomically: both or neither), and a
successful one leaves exactly one segment with that name, whose definition
is the single entry node referencing the group id, alongside the group row. -/
theorem upsert_group_invariant (db : Db) (id name : String)
    (ty : SubscriptionGroupType) (ws fresh : String)
    (hpre1 : (db.segments.filter (fun s => s.workspaceId == ws &&
      s.name == subscriptionGroupSegmentName id)).length ≤ 1)
    (hpre2 : ∀ s ∈ db.segments, s.workspaceId = ws →
      s.name = subscriptionGroupSegmentName id →
      s.definition = subscriptionGroupSegmentDefinition id ∧
      s.subscriptionGroupId = some id) :
    ((subscriptionGroupSegmentDefinition id).entryNode.subscriptionGroupId =
      id) ∧
    (∀ e db2, upsertSubscriptionGroup db id name ty ws fresh =
      (Except.error e, db2) → db2 = db) ∧
    (∀ g db2, upsertSubscriptionGroup db id name ty ws fresh =
      (Except.ok g, db2) →
      (db2.segments.filter (fun s => s.workspaceId == ws &&
        s.name == subscriptionGroupSegmentName id)).length = 1 ∧
      (∀ s ∈ db2.segments, s.workspaceId = ws →
        s.name = subscriptionGroupSegmentName id →
        s.definition = subscriptionGroupSegmentDefinition id ∧
        s.subscriptionGroupId = some id) ∧
      (∃ g2 ∈ db2.subscriptionGroups, g2.id = id)) := by
  refine ⟨rfl, ?_, ?_⟩
  · intro e db2 h
    rw [upsertSubscriptionGroup_eq] at h
    cases hc : db.channels.find? (fun c => c.workspaceId == ws &&
        c.name == "email") with
    | none =>
      rw [hc] at h
      exact (congrArg Prod.snd h).symm
    | some c =>
      rw [hc] at h
      exact absurd (congrArg Prod.fst h) (by simp)
  · intro g db2 h
    rw [upsertSubscriptionGroup_eq] at h
    cases hc : db.channels.find? (fun c => c.workspaceId == ws &&
        c.name == "email") with
    | none =>
      rw [hc] at h
      exact absurd (congrArg Prod.fst h) (by simp)
    | some c =>
      rw [hc] at h
      have hdb2 : db2 = { db with
          subscriptionGroups := (subscriptionGroupUpsert db.subscriptionGroups
            id name ty ws c.id).2
          segments := segmentUpsertByName db.segments ws
            (subscriptionGroupSegmentName id)
            ⟨fresh, ws, subscriptionGroupSegmentName id,
             subscriptionGroupSegmentDefinition id, some id, "Internal"⟩ } :=
        (congrArg Prod.snd h).symm
      subst hdb2
      refine ⟨?_, ?_, subscriptionGroupUpsert_mem db.subscriptionGroups id
        name ty ws c.id⟩
      · show (List.filter _ (segmentUpsertByName db.segments ws
          (subscriptionGroupSegmentName id) _)).length = 1
        unfold segmentUpsertByName
        by_cases hany : db.segments.any (fun s => s.workspaceId == ws &&
            s.name == subscriptionGroupSegmentName id)
        · rw [if_pos hany]
          obtain ⟨s, hs, hcond⟩ := List.any_eq_true.mp hany
          have hmemf : s ∈ db.segments.filter (fun s => s.workspaceId == ws &&
              s.name == subscriptionGroupSegmentName id) :=
            List.mem_filter.mpr ⟨hs, hcond⟩
          have hlen : 0 < (db.segments.filter (fun s => s.workspaceId == ws &&
              s.name == subscriptionGroupSegmentName id)).length :=
            List.length_pos_of_mem hmemf
          omega
        · rw [if_neg hany]
          rw [List.filter_append]
          have h0 : db.segments.filter (fun s => s.workspaceId == ws &&
              s.name == subscriptionGroupSegmentName id) = [] := by
            rw [List.filter_eq_nil_iff]
            intro s hs
            exact fun hcond => hany (List.any_eq_true.mpr ⟨s, hs, hcond⟩)
          rw [h0]
          simp
      · intro s hs hws hn
        have hs2 : s ∈ segmentUpsertByName db.segments ws
            (subscriptionGroupSegmentName id)
            ⟨fresh, ws, subscriptionGroupSegmentName id,
             subscriptionGroupSegmentDefinition id, some id, "Internal"⟩ := hs
        unfold segmentUpsertByName at hs2
        by_cases hany : db.segments.any (fun s => s.workspaceId == ws &&
            s.name == subscriptionGroupSegmentName id)
        · rw [if_pos hany] at hs2
          exact hpre2 s hs2 hws hn
        · rw [if_neg hany] at hs2
          rcases List.mem_append.mp hs2 with hmem | hmem
          · exact absurd (List.any_eq_true.mpr ⟨s, hmem, by simp [hws, hn]⟩)
              hany
          · rw [List.mem_singleton.mp hmem]
            exact ⟨rfl, rfl⟩

/-- Store with the "email" channel required by the registry. -/
def dbReg : Db :=
  { secrets := []
    userProperties := []
    userPropertyAssignments := []
    channels := [⟨"ch1", "ws1", "email"⟩]
    subscriptionGroups := []
    segments := []
    segmentAssignments := []
    userEvents := [] }

/-- The store after `upsertSubscriptionGroup dbReg "g1" "n1" OptOut`. -/
def dbReg1 : Db :=
  { secrets := []
    userProperties := []
    userPropertyAssignments := []
    channels := [⟨"ch1", "ws1", "email"⟩]
    subscriptionGroups := [⟨"g1", "ws1", "n1", SubscriptionGroupType.OptOut,
      "ch1"⟩]
    segments := [⟨"sg1", "ws1", "subscriptionGroup-g1",
      subscriptionGroupSegmentDefinition "g1", some "g1", "Internal"⟩]
    segmentAssignments := []
    userEvents := [] }

theorem upsert_group_invariant_witness :
    (dbReg1.segments.filter (fun s => s.workspaceId == "ws1" &&
      s.name == subscriptionGroupSegmentName "g1")).length = 1 ∧
    (∀ s ∈ dbReg1.segments, s.workspaceId = "ws1" →
      s.name = subscriptionGroupSegmentName "g1" →
      s.definition = subscriptionGroupSegmentDefinition "g1" ∧
      s.subscriptionGroupId = some "g1") ∧
    (∃ g2 ∈ dbReg1.subscriptionGroups, g2.id = "g1") :=
  (upsert_group_invariant dbReg "g1" "n1" SubscriptionGroupType.OptOut "ws1"
    "sg1" (by decide) (by decide)).2.2
    ⟨"g1", "ws1", "n1", SubscriptionGroupType.OptOut, "ch1"⟩ dbReg1 rfl

/-- C6: a second `upsertSubscriptionGroup` with the same id (in the same
workspace) changes only the group's `name` and `type`; every other group
field, and the backing segment — in particular the segment's definition and
its id — are exactly as after the first call, as is every other table. -/
theorem upsert_group_idempotent (db0 : Db) (id name1 name2 : String)
    (ty1 ty2 : SubscriptionGroupType) (ws fresh1 fresh2 : String)
    (g1 g2 : SubscriptionGroupRow) (db1 db2 : Db)
    (h1 : upsertSubscriptionGroup db0 id name1 ty1 ws fresh1 =
      (Except.ok g1, db1))
    (h2 : upsertSubscriptionGroup db1 id name2 ty2 ws fresh2 =
      (Except.ok g2, db2)) :
    db2.segments = db1.segments ∧
    db2.subscriptionGroups = db1.subscriptionGroups.map (fun g =>
      if g.id == id then { g with name := name2, type := ty2 } else g) ∧
    db2.secrets = db1.secrets ∧
    db2.userProperties = db1.userProperties ∧
    db2.userPropertyAssignments = db1.userPropertyAssignments ∧
    db2.channels = db1.channels ∧
    db2.segmentAssignments = db1.segmentAssignments ∧
    db2.userEvents = db1.userEvents := by
  rw [upsertSubscriptionGroup_eq] at h1
  cases hc1 : db0.channels.find? (fun c => c.workspaceId == ws &&
      c.name == "email") with
  | none =>
    rw [hc1] at h1
    exact absurd (congrArg Prod.fst h1) (by simp)
  | some c1 =>
    rw [hc1] at h1
    have hdb1 : db1 = { db0 with
        subscriptionGroups := (subscriptionGroupUpsert db0.subscriptionGroups
          id name1 ty1 ws c1.id).2
        segments := segmentUpsertByName db0.segments ws
          (subscriptionGroupSegmentName id)
          ⟨fresh1, ws, subscriptionGroupSegmentName id,
           subscriptionGroupSegmentDefinition id, some id, "Internal"⟩ } :=
      (congrArg Prod.snd h1).symm
    subst hdb1
    rw [upsertSubscriptionGroup_eq] at h2
    rw [show ({ db0 with
        subscriptionGroups := (subscriptionGroupUpsert db0.subscriptionGroups
          id name1 ty1 ws c1.id).2
        segments := segmentUpsertByName db0.segments ws
          (subscriptionGroupSegmentName id)
          ⟨fresh1, ws, subscriptionGroupSegmentName id,
           subscriptionGroupSegmentDefinition id, some id,
           "Internal"⟩ } : Db).channels = db0.channels from rfl, hc1] at h2
    have hseg : ∃ s ∈ segmentUpsertByName db0.segments ws
        (subscriptionGroupSegmentName id)
        ⟨fresh1, ws, subscriptionGroupSegmentName id,
         subscriptionGroupSegmentDefinition id, some id, "Internal"⟩,
        s.workspaceId = ws ∧ s.name = subscriptionGroupSegmentName id :=
      segmentUpsertByName_mem db0.segments ws
        (subscriptionGroupSegmentName id) _ rfl rfl
    have hgrp : ∃ g ∈ (subscriptionGroupUpsert db0.subscriptionGroups id
        name1 ty1 ws c1.id).2, g.id = id :=
      subscriptionGroupUpsert_mem db0.subscriptionGroups id name1 ty1 ws c1.id
    have hdb2 : db2 = { db0 with
        subscriptionGroups := (subscriptionGroupUpsert
          (subscriptionGroupUpsert db0.subscriptionGroups id name1 ty1 ws
            c1.id).2 id name2 ty2 ws c1.id).2
        segments := segmentUpsertByName
          (segmentUpsertByName db0.segments ws
            (subscriptionGroupSegmentName id)
            ⟨fresh1, ws, subscriptionGroupSegmentName id,
             subscriptionGroupSegmentDefinition id, some id, "Internal"⟩) ws
          (subscriptionGroupSegmentName id)
          ⟨fresh2, ws, subscriptionGroupSegmentName id,
           subscriptionGroupSegmentDefinition id, some id, "Internal"⟩ } :=
      (congrArg Prod.snd h2).symm
    subst hdb2
    refine ⟨?_, ?_, rfl, rfl, rfl, rfl, rfl, rfl⟩
    · show segmentUpsertByName _ ws (subscriptionGroupSegmentName id) _ = _
      unfold segmentUpsertByName
      rw [if_pos]
      obtain ⟨s, hs, hws, hn⟩ := hseg
      exact List.any_eq_true.mpr ⟨s, hs, by simp [hws, hn]⟩
    · obtain ⟨g, hg, hgid⟩ := hgrp
      cases hfind : (subscriptionGroupUpsert db0.subscriptionGroups id name1
          ty1 ws c1.id).2.find? (fun g => g.id == id) with
      | none =>
        exact absurd (List.find?_eq_none.mp hfind g hg) (by simp [hgid])
      | some g0 =>
        exact subscriptionGroupUpsert_update _ id name2 ty2 ws c1.id g0 hfind

/-- The store after the second upsert of group g1 with new name/type. -/
def dbReg2 : Db :=
  { secrets := []
    userProperties := []
    userPropertyAssignments := []
    channels := [⟨"ch1", "ws1", "email"⟩]
    subscriptionGroups := [⟨"g1", "ws1", "n2", SubscriptionGroupType.OptIn,
      "ch1"⟩]
    segments := [⟨"sg1", "ws1", "subscriptionGroup-g1",
      subscriptionGroupSegmentDefinition "g1", some "g1", "Internal"⟩]
    segmentAssignments := []
    userEvents := [] }

theorem upsert_group_idempotent_witness :
    dbReg2.segments = dbReg1.segments ∧
    dbReg2.subscriptionGroups = dbReg1.subscriptionGroups.map (fun g =>
      if g.id == "g1" then
        { g with name := "n2", type := SubscriptionGroupType.OptIn }
      else g) ∧
    dbReg2.secrets = dbReg1.secrets ∧
    dbReg2.userProperties = dbReg1.userProperties ∧
    dbReg2.userPropertyAssignments = dbReg1.userPropertyAssignments ∧
    dbReg2.channels = dbReg1.channels ∧
    dbReg2.segmentAssignments = dbReg1.segmentAssignments ∧
    dbReg2.userEvents = dbReg1.userEvents :=
  upsert_group_idempotent dbReg "g1" "n1" "n2" SubscriptionGroupType.OptOut
    SubscriptionGroupType.OptIn "ws1" "sg1" "sg2"
    ⟨"g1", "ws1", "n1", SubscriptionGroupType.OptOut, "ch1"⟩
    ⟨"g1", "ws1", "n2", SubscriptionGroupType.OptIn, "ch1"⟩ dbReg1 dbReg2
    rfl rfl

/-! ### Claims about the subscription listing -/

theorem userSubscriptionEntry_of_none (db : Db) (user : String)
    (g : SubscriptionGroupRow) (h : (includedSegments db g).head? = none) :
    userSubscriptionEntry db user g = none := by
  unfold userSubscriptionEntry
  rw [h]

theorem userSubscriptionEntry_of_some (db : Db) (user : String)
    (g : SubscriptionGroupRow) (seg : SegmentRow)
    (h : (includedSegments db g).head? = some seg) :
    userSubscriptionEntry db user g = some
      ⟨g.id, g.name,
       match (includedAssignments db seg user).head? with
       | some a => a.inSegment
       | none => false⟩ := by
  unfold userSubscriptionEntry
  rw [h]

theorem userSubscriptionEntry_fields (db : Db) (user : String)
    (g : SubscriptionGroupRow) (e : UserSubscriptionResource)
    (h : userSubscriptionEntry db user g = some e) :
    e.id = g.id ∧ e.name = g.name := by
  unfold userSubscriptionEntry at h
  cases hm : (includedSegments db g).head? with
  | none => rw [hm] at h; cases h
  | some seg =>
    rw [hm] at h
    injection h with h
    rw [← h]
    exact ⟨rfl, rfl⟩

theorem userSubscriptionEntry_isSome (db : Db) (user : String)
    (g : SubscriptionGroupRow) :
    (userSubscriptionEntry db user g).isSome =
      ((includedSegments db g).head?).isSome := by
  unfold userSubscriptionEntry
  cases hm : (includedSegments db g).head? <;> rfl

theorem length_filterMap_eq_length_filter {α β : Type} (f : α → Option β)
    (l : List α) :
    (l.filterMap f).length = (l.filter (fun a => (f a).isSome)).length := by
  induction l with
  | nil => rfl
  | cons a as ih =>
    rw [List.filterMap_cons, List.filter_cons]
    cases hf : f a with
    | none => simpa [hf] using ih
    | some b => simpa [hf] using ih

/-- C7: listing semantics — `getUserSubscriptions` returns its entries in
ascending name order; every subscription group of the workspace with a
paired segment yields an entry `{id, name, isSubscribed}` where
`isSubscribed` is true exactly when a SegmentAssignment row for that user
and segment exists with `inSegment = true` (no row, or a row with
`inSegment = false`, yields false); a group whose paired segment is missing
contributes no entry; and the number of entries is the number of workspace
groups with a paired segment.  The hypotheses are the store's unique-key
invariants: at most one assignment row per (user, segment), and distinct
group ids. -/
theorem get_user_subscriptions_spec (db : Db) (ws user : String)
    (hA : ∀ a1 ∈ db.segmentAssignments, ∀ a2 ∈ db.segmentAssignments,
      a1.userId = user → a2.userId = user → a1.segmentId = a2.segmentId →
      a1 = a2)
    (hG : (db.subscriptionGroups.map (fun g => g.id)).Nodup) :
    ((getUserSubscriptions db ws user).map (fun e => e.name)).Pairwise
      (· ≤ ·) ∧
    (∀ g ∈ db.subscriptionGroups, g.workspaceId = ws →
      ∀ seg, (includedSegments db g).head? = some seg →
      ∃ e ∈ getUserSubscriptions db ws user, e.id = g.id ∧ e.name = g.name ∧
        (e.isSubscribed = true ↔ ∃ a ∈ db.segmentAssignments,
          a.segmentId = seg.id ∧ a.userId = user ∧ a.inSegment = true)) ∧
    (∀ g ∈ db.subscriptionGroups, g.workspaceId = ws →
      (includedSegments db g).head? = none →
      ∀ e ∈ getUserSubscriptions db ws user, e.id ≠ g.id) ∧
    ((getUserSubscriptions db ws user).length =
      (db.subscriptionGroups.filter (fun g => g.workspaceId == ws &&
        ((includedSegments db g).head?).isSome)).length) := by
  have hperm : (subscriptionGroupFindManyOrdered db ws).Perm
      (db.subscriptionGroups.filter (fun g => g.workspaceId == ws)) :=
    List.mergeSort_perm _ _
  refine ⟨?_, ?_, ?_, ?_⟩
  · have hsorted : (subscriptionGroupFindManyOrdered db ws).Pairwise
        (fun a b => decide (a.name ≤ b.name) = true) :=
      List.sorted_mergeSort
        (by
          intro a b c hab hbc
          simp only [decide_eq_true_eq] at hab hbc ⊢
          exact le_trans hab hbc)
        (by
          intro a b
          simp only [Bool.or_eq_true, decide_eq_true_eq]
          exact le_total a.name b.name) _
    have hout : (getUserSubscriptions db ws user).Pairwise
        (fun e1 e2 => e1.name ≤ e2.name) := by
      refine List.Pairwise.filterMap (userSubscriptionEntry db user)
        ?_ hsorted
      intro a a1 hle b hb b1 hb1
      have hfa := userSubscriptionEntry_fields db user a b
        (Option.mem_def.mp hb)
      have hfb := userSubscriptionEntry_fields db user a1 b1
        (Option.mem_def.mp hb1)
      rw [hfa.2, hfb.2]
      simpa using hle
    exact List.pairwise_map.mpr hout
  · intro g hg hw seg hseg
    have hgf : g ∈ db.subscriptionGroups.filter
        (fun g => g.workspaceId == ws) :=
      List.mem_filter.mpr ⟨hg, by simp [hw]⟩
    have hgs : g ∈ subscriptionGroupFindManyOrdered db ws :=
      hperm.mem_iff.mpr hgf
    refine ⟨⟨g.id, g.name,
      match (includedAssignments db seg user).head? with
      | some a => a.inSegment
      | none => false⟩,
      List.mem_filterMap.mpr ⟨g, hgs,
        userSubscriptionEntry_of_some db user g seg hseg⟩, rfl, rfl, ?_⟩
    cases hm : (includedAssignments db seg user).head? with
    | none =>
      have hnil : includedAssignments db seg user = [] :=
        List.head?_eq_none_iff.mp hm
      simp only [hm]
      constructor
      · intro hfalse
        cases hfalse
      · rintro ⟨a, ha, hsg, hu, ht⟩
        have : a ∈ includedAssignments db seg user := by
          unfold includedAssignments
          exact List.mem_filter.mpr ⟨ha, by simp [hsg, hu]⟩
        rw [hnil] at this
        cases this
    | some a =>
      have ham : a ∈ includedAssignments db seg user :=
        List.mem_of_mem_head? (by simp [hm])
      have haprops := List.mem_filter.mp ham
      have hamem : a ∈ db.segmentAssignments := haprops.1
      have hcond := haprops.2
      simp only [Bool.and_eq_true, beq_iff_eq] at hcond
      simp only [hm]
      constructor
      · intro ht
        exact ⟨a, hamem, hcond.1, hcond.2, ht⟩
      · rintro ⟨a1, ha1, hsg1, hu1, ht1⟩
        have : a1 = a := hA a1 ha1 a hamem hu1 hcond.2
          (hsg1.trans hcond.1.symm)
        rw [← this]
        exact ht1
  · intro g hg hw hnone e he hid
    obtain ⟨g1, hg1s, hfg1⟩ := List.mem_filterMap.mp he
    have hg1f : g1 ∈ db.subscriptionGroups.filter
        (fun g => g.workspaceId == ws) := hperm.mem_iff.mp hg1s
    have hg1mem : g1 ∈ db.subscriptionGroups := (List.mem_filter.mp hg1f).1
    have hfields := userSubscriptionEntry_fields db user g1 e hfg1
    have hid1 : g1.id = g.id := hfields.1.symm.trans hid
    have : g1 = g := List.inj_on_of_nodup_map hG hg1mem hg hid1
    rw [this, userSubscriptionEntry_of_none db user g hnone] at hfg1
    cases hfg1
  · unfold getUserSubscriptions
    rw [length_filterMap_eq_length_filter]
    have h1 : ((subscriptionGroupFindManyOrdered db ws).filter
        (fun g => (userSubscriptionEntry db user g).isSome)).Perm
        ((db.subscriptionGroups.filter (fun g => g.workspaceId == ws)).filter
          (fun g => (userSubscriptionEntry db user g).isSome)) :=
      hperm.filter _
    rw [h1.length_eq, List.filter_filter]
    congr 1
    apply List.filter_congr
    intro g hg
    rw [userSubscriptionEntry_isSome]
    rw [Bool.and_comm]

/-- Store for the listing scenario: groups Bravo/Alpha/Charlie (unsorted in
the table), Charlie without a backing segment, and the user subscribed to
Alpha's segment only. -/
def dbList : Db :=
  { secrets := []
    userProperties := []
    userPropertyAssignments := []
    channels := []
    subscriptionGroups :=
      [⟨"gB", "ws1", "Bravo", SubscriptionGroupType.OptOut, "ch1"⟩,
       ⟨"gA", "ws1", "Alpha", SubscriptionGroupType.OptOut, "ch1"⟩,
       ⟨"gC", "ws1", "Charlie", SubscriptionGroupType.OptOut, "ch1"⟩]
    segments :=
      [⟨"sB", "ws1", "subscriptionGroup-gB",
        subscriptionGroupSegmentDefinition "gB", some "gB", "Internal"⟩,
       ⟨"sA", "ws1", "subscriptionGroup-gA",
        subscriptionGroupSegmentDefinition "gA", some "gA", "Internal"⟩]
    segmentAssignments := [⟨"ws1", "u1", "sA", true⟩]
    userEvents := [] }

theorem get_user_subscriptions_spec_witness :
    ((getUserSubscriptions dbList "ws1" "u1").map (fun e => e.name)).Pairwise
      (· ≤ ·) ∧
    (∃ e ∈ getUserSubscriptions dbList "ws1" "u1", e.id = "gA" ∧
      e.name = "Alpha" ∧
      (e.isSubscribed = true ↔ ∃ a ∈ dbList.segmentAssignments,
        a.segmentId = "sA" ∧ a.userId = "u1" ∧ a.inSegment = true)) ∧
    (∀ e ∈ getUserSubscriptions dbList "ws1" "u1", e.id ≠ "gC") ∧
    ((getUserSubscriptions dbList "ws1" "u1").length =
      (dbList.subscriptionGroups.filter (fun g => g.workspaceId == "ws1" &&
        ((includedSegments dbList g).head?).isSome)).length) := by
  obtain ⟨h1, h2, h3, h4⟩ := get_user_subscriptions_spec dbList "ws1" "u1"
    (by decide) (by decide)
  exact ⟨h1,
    h2 ⟨"gA", "ws1", "Alpha", SubscriptionGroupType.OptOut, "ch1"⟩
      (by decide) rfl
      ⟨"sA", "ws1", "subscriptionGroup-gA",
       subscriptionGroupSegmentDefinition "gA", some "gA", "Internal"⟩
      (by decide),
    h3 ⟨"gC", "ws1", "Charlie", SubscriptionGroupType.OptOut, "ch1"⟩
      (by decide) rfl (by decide), h4⟩
